import Mathlib

/-
Shallow embedding of `scripts/validate-links.py`, the link-and-anchor
resolution engine of the documentation-corpus validator.

Modelling conventions:
  * Python `str` is `List Char` (`Str` below); regular-expression
    substitutions are modelled as recursive scanners that reproduce the
    leftmost, non-overlapping match semantics of `re.sub` / `finditer`,
    including lazy (`.+?`) and greedy (`[^x]+`, `\s+`) quantifier behaviour.
    Character classes (`\w`, `\s`) and `str.lower` are modelled on their
    ASCII fragment.
  * The filesystem is an explicit record of capabilities
    (read / is_file / is_dir / directory listing), as the script's
    design notes themselves suggest; absolute paths are lists of
    components, and `Path.resolve()` is dot-dot normalisation over them.
  * `codex_root`, a module-level global in the script, is passed as an
    explicit parameter `codexRoot`.
  * `Path.relative_to` raises `ValueError` when the base is not a prefix;
    this is modelled by `Option`, `none` standing for the raised error.
  * Scanners that jump over a matched span recurse on a non-structural
    suffix; they take an explicit fuel argument, initialised with the
    length of the input, which the length invariant keeps from running out.
-/

set_option linter.unusedVariables false
set_option maxRecDepth 10000

namespace ValidateLinks

/-- Python strings, modelled as lists of characters. -/
abbrev Str := List Char

/-- Absolute filesystem paths, modelled as lists of name components. -/
abbrev FsPath := List Str

/-! ### Character classes (ASCII fragments of Python's `\s`, `\w`, `str.lower`) -/

/-- Python's `\s` class and `str.strip()` whitespace (ASCII fragment). -/
def pyIsSpace (c : Char) : Bool :=
  c == ' ' || c == '\t' || c == '\n' || c == '\r' || c == '\x0B' || c == '\x0C'

/-- Python's `\w` class: letters, digits and underscore (ASCII fragment). -/
def isWordChar (c : Char) : Bool :=
  c.isAlphanum || c == '_'

/-! ### `str.strip` -/

/-- Remove characters satisfying `p` from both ends of a list
(`str.strip()` / `str.strip('-')`). -/
def stripEnds (p : Char → Bool) (l : Str) : Str :=
  ((l.dropWhile p).reverse.dropWhile p).reverse

/-- Python `str.strip()` with no argument: strip whitespace. -/
def pyStrip (l : Str) : Str := stripEnds pyIsSpace l

/-! ### The regex substitutions of `slugify_heading` -/

/-- Helper for the lazy `d(.+?)d` span patterns: given the text following an
opening delimiter `d`, find the shortest non-empty inner text, not containing
a newline (`.` does not match `'\n'`), that is followed by the closing
delimiter; return the inner text and the text after the closing delimiter. -/
def findClose (d : Str) : Str → Option (Str × Str)
  | [] => none
  | c :: rest =>
    if c == '\n' then none
    else if d.isPrefixOf rest then some ([c], rest.drop d.length)
    else
      match findClose d rest with
      | some (inner, after) => some (c :: inner, after)
      | none => none

/-- `re.sub(r'd(.+?)d', r'\1', s)` for a literal delimiter `d`: replace each
leftmost non-overlapping delimited span by its inner text.  Used with
`d = "**"`, `d = "*"` and `d = "`"` for steps 2-4 of the slugifier. -/
def subSpansF (d : Str) : Nat → Str → Str
  | _, [] => []
  | 0, s => s
  | fuel + 1, c :: rest =>
    if d.isPrefixOf (c :: rest) then
      match findClose d ((c :: rest).drop d.length) with
      | some (inner, after) => inner ++ subSpansF d fuel after
      | none => c :: subSpansF d fuel rest
    else c :: subSpansF d fuel rest

/-- Attempt to match `([^\]]+)\]\([^)]+\)` at the text following a literal
`[`; on success return the display text (capture 1) and the text after the
closing parenthesis. -/
def tryLinkCollapse (s : Str) : Option (Str × Str) :=
  let d := s.takeWhile (fun c => !(c == ']'))
  if d.isEmpty then none
  else
    match s.drop d.length with
    | ']' :: '(' :: r2 =>
      let tgt := r2.takeWhile (fun c => !(c == ')'))
      if tgt.isEmpty then none
      else
        match r2.drop tgt.length with
        | ')' :: after => some (d, after)
        | _ => none
    | _ => none

/-- `re.sub(r'\[([^\]]+)\]\([^)]+\)', r'\1', s)`: collapse each inline link
construct to its display text (step 5 of the slugifier). -/
def subLinksF : Nat → Str → Str
  | _, [] => []
  | 0, s => s
  | fuel + 1, c :: rest =>
    if c == '[' then
      match tryLinkCollapse rest with
      | some (txt, after) => txt ++ subLinksF fuel after
      | none => c :: subLinksF fuel rest
    else c :: subLinksF fuel rest

/-- `re.sub(r'[\s]+', '-', s)`: replace every maximal run of whitespace by a
single hyphen (step 8 of the slugifier). -/
def collapseWs : Str → Str
  | [] => []
  | [c] => if pyIsSpace c then ['-'] else [c]
  | c :: c' :: rest =>
    if pyIsSpace c then
      if pyIsSpace c' then collapseWs (c' :: rest)
      else '-' :: collapseWs (c' :: rest)
    else c :: collapseWs (c' :: rest)

/-- The character class kept by step 7, `re.sub(r'[^\w\s-]', '', s)`. -/
def keepChar (c : Char) : Bool :=
  isWordChar c || pyIsSpace c || c == '-'

/-- Steps 1-8 of `slugify_heading`: strip, unmark bold/italic/code spans,
collapse links, lowercase, drop characters outside `[\w\s-]`, and replace
whitespace runs by hyphens. -/
def preSlug (heading : Str) : Str :=
  let h1 := pyStrip heading
  let h2 := subSpansF ['*', '*'] h1.length h1
  let h3 := subSpansF ['*'] h2.length h2
  let h4 := subSpansF ['`'] h3.length h3
  let h5 := subLinksF h4.length h4
  let h6 := h5.map Char.toLower
  let h7 := h6.filter keepChar
  collapseWs h7

/-- `slugify_heading` from the script: the nine-step normalisation of a
heading's display text into a canonical anchor string (step 9, stripping
leading/trailing hyphens, closes the pipeline). -/
def slugify_heading (heading : Str) : Str :=
  stripEnds (fun c => c == '-') (preSlug heading)

/-! ### HEADING_PATTERN and the anchor extractor -/

/-- Attempt to match `HEADING_PATTERN = ^#{1,6}\s+(.+)$` (MULTILINE) at a
line-start position: 1-6 literal hashes, then `\s+` — greedy, and in
MULTILINE mode able to run across newlines — then `(.+)$`, at least one
non-newline character up to the end of the line.  When the whole tail is
whitespace the greedy `\s+` backtracks just enough for `(.+)` to take the
last non-newline whitespace character.  Returns the capture and the text
following the match. -/
def tryHeading (s : Str) : Option (Str × Str) :=
  let hashes := s.takeWhile (fun c => c == '#')
  if 1 ≤ hashes.length ∧ hashes.length ≤ 6 then
    let t := s.drop hashes.length
    let w := t.takeWhile pyIsSpace
    if w.length = 0 then none
    else
      let r := t.drop w.length
      if r.isEmpty then
        let w' := (w.reverse.dropWhile (fun c => c == '\n')).reverse
        if 2 ≤ w'.length then some ([w'.getLastD ' '], w.drop w'.length) else none
      else
        let g := r.takeWhile (fun c => !(c == '\n'))
        some (g, r.drop g.length)
  else none

/-- Skip to the position just after the next newline (the next place where
MULTILINE `^` can anchor). -/
def nextLine (s : Str) : Str :=
  (s.dropWhile (fun c => !(c == '\n'))).drop 1

/-- `HEADING_PATTERN.finditer(content)`: the captured heading texts, in
order.  Scanning restarts at the line start following each match. -/
def headingsF : Nat → Str → List Str
  | _, [] => []
  | 0, _ => []
  | fuel + 1, s =>
    match tryHeading s with
    | some (g, after) => g :: headingsF fuel (nextLine after)
    | none => headingsF fuel (nextLine s)

/-- The heading texts of a document's content. -/
def headingsOf (content : Str) : List Str :=
  headingsF content.length content

/-! ### The filesystem capability record -/

/-- The filesystem operations the script performs, abstracted as the design
notes of the script suggest.  `read p = none` models every way
`Path.read_text` can fail (missing file, OS error, undecodable bytes);
`children` is `Path.iterdir`, returning entry names in the order the
operating system yields them. -/
structure FS where
  read : FsPath → Option Str
  isFile : FsPath → Bool
  isDir : FsPath → Bool
  children : FsPath → List Str

/-- `Path.exists()`: true for regular files and directories. -/
def FS.exists' (fs : FS) (p : FsPath) : Bool :=
  fs.isFile p || fs.isDir p

/-- `extract_anchors` from the script: the set of non-empty slugs of the
document's headings; the empty set when the document cannot be read. -/
def extract_anchors (fs : FS) (filepath : FsPath) : Finset Str :=
  match fs.read filepath with
  | none => ∅
  | some content =>
    (((headingsOf content).map slugify_heading).filter (fun a => !a.isEmpty)).toFinset

/-! ### LINK_PATTERN -/

/-- Attempt to match `([^\]]*)\]\(([^)]+)\)` at the text following a literal
`[`: zero-or-more non-`]` display characters, `](`, one-or-more non-`)`
target characters, `)`.  Returns display text, target and the rest. -/
def tryLink (s : Str) : Option (Str × Str × Str) :=
  let d := s.takeWhile (fun c => !(c == ']'))
  match s.drop d.length with
  | ']' :: '(' :: r2 =>
    let tgt := r2.takeWhile (fun c => !(c == ')'))
    if tgt.isEmpty then none
    else
      match r2.drop tgt.length with
      | ')' :: after => some (d, tgt, after)
      | _ => none
  | _ => none

/-- `LINK_PATTERN.finditer(line)`: the `(display text, target)` pairs of the
inline references on a line, left to right, non-overlapping. -/
def findLinksF : Nat → Str → List (Str × Str)
  | _, [] => []
  | 0, _ => []
  | fuel + 1, c :: rest =>
    if c == '[' then
      match tryLink rest with
      | some (d, tgt, after) => (d, tgt) :: findLinksF fuel after
      | none => findLinksF fuel rest
    else findLinksF fuel rest

/-- All inline references found on one line. -/
def findLinks (line : Str) : List (Str × Str) :=
  findLinksF line.length line

/-! ### Path arithmetic -/

/-- Split a list at every occurrence of `sep` (`str.split`): `n` separators
yield `n + 1` pieces, so the empty list yields `[[]]`. -/
def splitOnChar (sep : Char) : Str → List Str
  | [] => [[]]
  | c :: rest =>
    match splitOnChar sep rest with
    | [] => [[]]
    | h :: tl => if c == sep then [] :: h :: tl else (c :: h) :: tl

/-- Normalise `.` and `..` components against an absolute component list
(the dot handling of `Path.resolve()`; symlinks are outside the model). -/
def resolveDots (parts : List Str) : FsPath :=
  parts.foldl
    (fun acc comp =>
      if comp = "..".toList then acc.dropLast
      else if comp = ".".toList then acc
      else acc ++ [comp]) []

/-- `(filepath.parent / file_part).resolve()`: split the target string on
`/` (pathlib drops empty and `.` components), append to the containing
directory — or restart from the root when the target is absolute — and
normalise. -/
def resolveTarget (filepath : FsPath) (file_part : Str) : FsPath :=
  let comps := (splitOnChar '/' file_part).filter
    (fun comp => !comp.isEmpty && !(comp == ".".toList))
  resolveDots ((if file_part.head? = some '/' then [] else filepath.dropLast) ++ comps)

/-- `filepath.relative_to(root)`: the components of `filepath` below
`root`; `none` models the `ValueError` raised when `root` is not an
ancestor. -/
def relative_to (p root : FsPath) : Option FsPath :=
  if root.isPrefixOf p then some (p.drop root.length) else none

/-- Python's substring operator `needle in hay` on strings. -/
def isSubstr : Str → Str → Bool
  | n, [] => n.isEmpty
  | n, c :: rest => n.isPrefixOf (c :: rest) || isSubstr n rest

/-! ### The link resolver -/

/-- One reported broken reference: source document (relative to the codex
root), 1-based line number, raw target string, reason text. -/
structure Issue where
  file : Option FsPath
  line : Nat
  link : Str
  issue : Str
deriving DecidableEq

/-- `link_target.split('#', 1)` after the `'#' in link_target` test:
file-part plus optional anchor-part. -/
def splitTarget (t : Str) : Str × Option Str :=
  if '#' ∈ t then (t.takeWhile (fun c => !(c == '#')), some ((t.dropWhile (fun c => !(c == '#'))).drop 1))
  else (t, none)

/-- Truthiness of `anchor_part` in `if anchor_part and resolved.is_file()`:
`None` and the empty string are falsy. -/
def anchorTruthy : Option Str → Bool
  | none => false
  | some a => !a.isEmpty

/-- `link_target.startswith(('http://', 'https://', 'mailto:'))`. -/
def isExternal (t : Str) : Bool :=
  "http://".toList.isPrefixOf t || "https://".toList.isPrefixOf t ||
    "mailto:".toList.isPrefixOf t

/-- The body of `validate_file`'s inner loop: classify one reference target
and return the issues (zero or one) it contributes. -/
def process_link (fs : FS) (filepath codexRoot : FsPath) (line_num : Nat)
    (link_target : Str) : List Issue :=
  if isExternal link_target then []
  else if link_target.head? = some '#' then
    let anchor := link_target.drop 1
    if anchor ∈ extract_anchors fs filepath then []
    else
      [{ file := relative_to filepath codexRoot, line := line_num,
         link := link_target, issue := "Anchor not found in file".toList }]
  else
    let fa := splitTarget link_target
    let file_part := fa.1
    let anchor_part := fa.2
    let resolved := resolveTarget filepath file_part
    if fs.exists' resolved = false then
      let parent := resolved.dropLast
      let name := resolved.getLastD []
      let suggestion :=
        if fs.exists' parent = true then
          match (fs.children parent).find?
              (fun sib => isSubstr name sib || isSubstr sib name) with
          | some sib => " (did you mean `".toList ++ sib ++ "`?)".toList
          | none => []
        else []
      [{ file := relative_to filepath codexRoot, line := line_num,
         link := link_target,
         issue := (if file_part.getLast? = some '/' then "Directory".toList
                   else "File".toList) ++ " not found".toList ++ suggestion }]
    else if anchorTruthy anchor_part && fs.isFile resolved then
      match anchor_part with
      | some ap =>
        if ap ∈ extract_anchors fs resolved then []
        else
          [{ file := relative_to filepath codexRoot, line := line_num,
             link := link_target,
             issue := "Anchor `#".toList ++ ap ++ "` not found in target file".toList }]
      | none => []
    else []

/-- Per-line step of `validate_file`: a line whose stripped content begins
with three backticks is skipped entirely; otherwise each reference found on
the line is processed left to right. -/
def lineIssues (fs : FS) (filepath codexRoot : FsPath) (line_num : Nat)
    (line : Str) : List Issue :=
  if "```".toList.isPrefixOf (pyStrip line) then []
  else (findLinks line).flatMap (fun m => process_link fs filepath codexRoot line_num m.2)

/-- `validate_file` from the script: read the document, split it into lines,
and collect the issues of every line (1-based numbering).  `scan_root` is
accepted — and, exactly as in the script, never used: issue paths are
computed against the module-level `codex_root`. -/
def validate_file (fs : FS) (filepath scan_root codexRoot : FsPath) : List Issue :=
  match fs.read filepath with
  | none => []
  | some content =>
    ((splitOnChar '\n' content).enumFrom 1).flatMap
      (fun p => lineIssues fs filepath codexRoot p.1 p.2)

/-! ## Helper lemmas

List and character facts used to settle the claims; all shared, none
specific to a single claim. -/

theorem mem_dropWhile {p : Char → Bool} {l : Str} {c : Char}
    (h : c ∈ l.dropWhile p) : c ∈ l := by
  induction l with
  | nil => simp at h
  | cons a t ih =>
    rw [List.dropWhile_cons] at h
    by_cases hp : p a = true
    · exact List.mem_cons_of_mem a (ih (by simpa [hp] using h))
    · simpa [hp] using h

theorem mem_stripEnds {p : Char → Bool} {l : Str} {c : Char}
    (h : c ∈ stripEnds p l) : c ∈ l := by
  unfold stripEnds at h
  rw [List.mem_reverse] at h
  have h2 := mem_dropWhile h
  rw [List.mem_reverse] at h2
  exact mem_dropWhile h2

theorem head?_dropWhile_false {p : Char → Bool} {l : Str} {a : Char}
    (h : (l.dropWhile p).head? = some a) : p a = false := by
  induction l with
  | nil => exact Option.noConfusion h
  | cons b t ih =>
    rw [List.dropWhile_cons] at h
    by_cases hp : p b = true
    · exact ih (by simpa [hp] using h)
    · rw [if_neg hp] at h
      rw [List.head?_cons, Option.some.injEq] at h
      subst h
      simpa using hp

theorem dropWhile_dropWhile {p : Char → Bool} {l : Str} :
    (l.dropWhile p).dropWhile p = l.dropWhile p := by
  cases h : l.dropWhile p with
  | nil => simp
  | cons a t =>
    have ha : p a = false := head?_dropWhile_false (by rw [h]; rfl)
    rw [List.dropWhile_cons, ha]
    simp

theorem dropWhile_eq_self {p : Char → Bool} {l : Str}
    (h : ∀ c ∈ l, p c = false) : l.dropWhile p = l := by
  cases l with
  | nil => rfl
  | cons a t => rw [List.dropWhile_cons, h a (by simp)]; simp

theorem stripEnds_eq_self {p : Char → Bool} {l : Str}
    (h : ∀ c ∈ l, p c = false) : stripEnds p l = l := by
  unfold stripEnds
  rw [dropWhile_eq_self h, dropWhile_eq_self (by simpa using h), List.reverse_reverse]

theorem dropWhile_head?_eq_self {p : Char → Bool} {l : Str}
    (h : ∀ a, l.head? = some a → p a = false) : l.dropWhile p = l := by
  cases l with
  | nil => rfl
  | cons a t => rw [List.dropWhile_cons, h a rfl]; simp

theorem getLast?_dropWhile {p : Char → Bool} {l : Str} {a : Char}
    (h : (l.dropWhile p).getLast? = some a) : l.getLast? = some a := by
  conv_lhs => rw [← List.takeWhile_append_dropWhile (p := p) (l := l)]
  rw [List.getLast?_append, h]
  rfl

theorem dropWhile_stripEnds {p : Char → Bool} {l : Str} :
    (stripEnds p l).dropWhile p = stripEnds p l := by
  apply dropWhile_head?_eq_self
  intro a ha
  unfold stripEnds at ha
  rw [List.head?_reverse] at ha
  have h2 := getLast?_dropWhile ha
  rw [List.getLast?_reverse] at h2
  exact head?_dropWhile_false h2

theorem stripEnds_idem {p : Char → Bool} {l : Str} :
    stripEnds p (stripEnds p l) = stripEnds p l := by
  show (((stripEnds p l).dropWhile p).reverse.dropWhile p).reverse = stripEnds p l
  rw [dropWhile_stripEnds]
  have hrev : (stripEnds p l).reverse = (l.dropWhile p).reverse.dropWhile p := by
    unfold stripEnds
    exact List.reverse_reverse _
  rw [hrev, dropWhile_dropWhile]
  rfl

theorem map_eq_self {f : Char → Char} {l : Str}
    (h : ∀ c ∈ l, f c = c) : l.map f = l := by
  induction l with
  | nil => rfl
  | cons a t ih =>
    simp only [List.map_cons, h a (by simp), List.cons.injEq, true_and]
    exact ih fun c hc => h c (by simp [hc])

theorem toLower_idem (c : Char) : (Char.toLower c).toLower = Char.toLower c := by
  have key : ∀ n : Nat, n.isValidChar → (Char.ofNat n).toNat = n := by
    intro n h
    simp [Char.ofNat, h, Char.ofNatAux, Char.toNat, UInt32.toNat,
      BitVec.toNat_ofNatLt]
  unfold Char.toLower
  by_cases h : 65 ≤ c.toNat ∧ c.toNat ≤ 90
  · have hv : (c.toNat + 32).isValidChar := Or.inl (by omega)
    have ht : (Char.ofNat (c.toNat + 32)).toNat = c.toNat + 32 := key _ hv
    rw [if_pos h, ht, if_neg (by omega)]
  · rw [if_neg h, if_neg h]

theorem pyIsSpace_cases {c : Char} (h : pyIsSpace c = true) :
    c = ' ' ∨ c = '\t' ∨ c = '\n' ∨ c = '\r' ∨ c = '\x0B' ∨ c = '\x0C' := by
  simpa [pyIsSpace, or_assoc] using h

theorem isWordChar_not_space {c : Char} (h : isWordChar c = true) :
    pyIsSpace c = false := by
  cases hs : pyIsSpace c with
  | false => rfl
  | true =>
    rcases pyIsSpace_cases hs with rfl | rfl | rfl | rfl | rfl | rfl <;>
      simp [isWordChar] at h

theorem mem_collapseWs {c : Char} : ∀ {l : Str},
    c ∈ collapseWs l → c = '-' ∨ (c ∈ l ∧ pyIsSpace c = false) := by
  intro l
  induction l with
  | nil => intro h; simp [collapseWs] at h
  | cons a t ih =>
    cases t with
    | nil =>
      intro h
      cases ha : pyIsSpace a <;> simp only [collapseWs, ha] at h
      · rcases List.mem_singleton.mp h with rfl
        exact Or.inr ⟨by simp, ha⟩
      · rcases List.mem_singleton.mp (by simpa using h) with rfl
        exact Or.inl rfl
    | cons b t' =>
      intro h
      cases ha : pyIsSpace a <;> simp only [collapseWs, ha] at h
      · rcases List.mem_cons.mp h with rfl | h2
        · exact Or.inr ⟨by simp, ha⟩
        · rcases ih h2 with h3 | ⟨h3, h4⟩
          · exact Or.inl h3
          · exact Or.inr ⟨by simp [h3], h4⟩
      · cases hb : pyIsSpace b <;> simp only [hb, if_false, if_true] at h
        · rcases List.mem_cons.mp h with rfl | h2
          · exact Or.inl rfl
          · rcases ih h2 with h3 | ⟨h3, h4⟩
            · exact Or.inl h3
            · exact Or.inr ⟨by simp [h3], h4⟩
        · rcases ih h with h3 | ⟨h3, h4⟩
          · exact Or.inl h3
          · exact Or.inr ⟨by simp [h3], h4⟩

theorem collapseWs_eq_self : ∀ {l : Str},
    (∀ c ∈ l, pyIsSpace c = false) → collapseWs l = l := by
  intro l
  induction l with
  | nil => intro _; rfl
  | cons a t ih =>
    cases t with
    | nil =>
      intro h
      simp [collapseWs, h a (by simp)]
    | cons b t' =>
      intro h
      have ht := ih fun c hc => h c (List.mem_cons_of_mem a hc)
      simp [collapseWs, h a (by simp), ht]

theorem subSpansF_eq_self (d : Str) {e : Char} (hd : d.head? = some e) :
    ∀ (f : Nat) {l : Str}, e ∉ l → subSpansF d f l = l := by
  intro f
  induction f with
  | zero => intro l _; cases l <;> rfl
  | succ n ih =>
    intro l h
    cases l with
    | nil => rfl
    | cons c rest =>
      have hne : ¬(c = e) := fun hc => h (by simp [hc])
      have hpre : d.isPrefixOf (c :: rest) = false := by
        cases d with
        | nil => simp at hd
        | cons e' d' =>
          simp only [List.head?_cons, Option.some.injEq] at hd
          subst hd
          simp only [List.isPrefixOf, Bool.and_eq_false_iff]
          left
          simpa [beq_iff_eq] using fun hc => hne hc.symm
      simp only [subSpansF, hpre, Bool.false_eq_true, if_false]
      rw [ih fun hm => h (by simp [hm])]

theorem subLinksF_eq_self :
    ∀ (f : Nat) {l : Str}, '[' ∉ l → subLinksF f l = l := by
  intro f
  induction f with
  | zero => intro l _; cases l <;> rfl
  | succ n ih =>
    intro l h
    cases l with
    | nil => rfl
    | cons c rest =>
      have hne : (c == '[') = false := by
        simp only [beq_eq_false_iff_ne, ne_eq]
        exact fun hc => h (by simp [hc])
      simp only [subLinksF, hne, Bool.false_eq_true, if_false]
      rw [ih fun hm => h (by simp [hm])]

/-- Every character of a slug is a lower-fixed word character or a hyphen. -/
theorem slug_chars {x : Str} {c : Char} (h : c ∈ slugify_heading x) :
    (isWordChar c = true ∧ Char.toLower c = c) ∨ c = '-' := by
  unfold slugify_heading at h
  have h1 : c ∈ preSlug x := mem_stripEnds h
  unfold preSlug at h1
  rcases mem_collapseWs h1 with h2 | ⟨h2, hns⟩
  · exact Or.inr h2
  · rcases List.mem_filter.mp h2 with ⟨h3, hkeep⟩
    rcases List.mem_map.mp h3 with ⟨a, _, rfl⟩
    have hfix : Char.toLower (Char.toLower a) = Char.toLower a := toLower_idem a
    simp only [keepChar, Bool.or_eq_true] at hkeep
    rcases hkeep with hkeep | hk
    · rcases hkeep with hw | hs
      · exact Or.inl ⟨hw, hfix⟩
      · rw [hs] at hns; simp at hns
    · exact Or.inr (by simpa [beq_iff_eq] using hk)

theorem slugify_heading_idem (x : Str) :
    slugify_heading (slugify_heading x) = slugify_heading x := by
  have hchars := fun c (hc : c ∈ slugify_heading x) => slug_chars hc
  have hnospace : ∀ c ∈ slugify_heading x, pyIsSpace c = false := by
    intro c hc
    rcases hchars c hc with ⟨hw, _⟩ | rfl
    · exact isWordChar_not_space hw
    · rfl
  have hnotmem : ∀ e : Char, isWordChar e = false → ¬(e = '-') →
      e ∉ slugify_heading x := by
    intro e hw hh hm
    rcases hchars e hm with ⟨hw', _⟩ | h'
    · rw [hw] at hw'; cases hw'
    · exact hh h'
  have hlower : ∀ c ∈ slugify_heading x, Char.toLower c = c := by
    intro c hc
    rcases hchars c hc with ⟨_, hf⟩ | rfl
    · exact hf
    · rfl
  have hkeep : ∀ c ∈ slugify_heading x, keepChar c = true := by
    intro c hc
    rcases hchars c hc with ⟨hw, _⟩ | rfl
    · simp [keepChar, hw]
    · simp [keepChar]
  have hpre : preSlug (slugify_heading x) = slugify_heading x := by
    simp only [preSlug, pyStrip]
    rw [stripEnds_eq_self hnospace,
      subSpansF_eq_self ['*', '*'] rfl _ (hnotmem '*' (by decide) (by decide)),
      subSpansF_eq_self ['*'] rfl _ (hnotmem '*' (by decide) (by decide)),
      subSpansF_eq_self ['`'] rfl _ (hnotmem '`' (by decide) (by decide)),
      subLinksF_eq_self _ (hnotmem '[' (by decide) (by decide)),
      map_eq_self hlower, List.filter_eq_self.mpr hkeep,
      collapseWs_eq_self hnospace]
  calc slugify_heading (slugify_heading x)
      = stripEnds (fun c => c == '-') (preSlug (slugify_heading x)) := rfl
    _ = stripEnds (fun c => c == '-') (slugify_heading x) := by rw [hpre]
    _ = slugify_heading x := stripEnds_idem

/-! ## Case analyses of `process_link` -/

/-- A reference target beginning with `#` is never classified external. -/
theorem isExternal_of_hash {t : Str} (h : t.head? = some '#') :
    isExternal t = false := by
  cases t with
  | nil => simp at h
  | cons c rest =>
    simp only [List.head?_cons, Option.some.injEq] at h
    subst h
    simp [isExternal, List.isPrefixOf]

/-- Same-document anchor branch of `process_link`. -/
theorem process_link_same_doc (fs : FS) (filepath codexRoot : FsPath) (n : Nat)
    {t : Str} (hh : t.head? = some '#') :
    process_link fs filepath codexRoot n t =
      if t.drop 1 ∈ extract_anchors fs filepath then []
      else [{ file := relative_to filepath codexRoot, line := n, link := t,
              issue := "Anchor not found in file".toList }] := by
  unfold process_link
  rw [isExternal_of_hash hh]
  simp only [Bool.false_eq_true, if_false, if_pos hh]

/-- Missing-target branch of `process_link`: the reference is cross-document
and its resolved file part does not exist. -/
theorem process_link_missing (fs : FS) (filepath codexRoot : FsPath) (n : Nat)
    {t fp : Str} {ap : Option Str}
    (hext : isExternal t = false) (hh : t.head? ≠ some '#')
    (hs : splitTarget t = (fp, ap))
    (hne : fs.exists' (resolveTarget filepath fp) = false) :
    process_link fs filepath codexRoot n t =
      [{ file := relative_to filepath codexRoot, line := n, link := t,
         issue :=
           (if fp.getLast? = some '/' then "Directory".toList else "File".toList)
             ++ " not found".toList
             ++ (if fs.exists' ((resolveTarget filepath fp).dropLast) = true then
                  match (fs.children ((resolveTarget filepath fp).dropLast)).find?
                      (fun sib =>
                        isSubstr ((resolveTarget filepath fp).getLastD []) sib ||
                        isSubstr sib ((resolveTarget filepath fp).getLastD [])) with
                  | some sib => " (did you mean `".toList ++ sib ++ "`?)".toList
                  | none => []
                 else []) }] := by
  unfold process_link
  rw [hext]
  simp only [Bool.false_eq_true, if_false, if_neg hh, hs, hne]
  simp

/-- Cross-document branch of `process_link` when the resolved target exists:
the remaining behaviour is the anchor check. -/
theorem process_link_exists (fs : FS) (filepath codexRoot : FsPath) (n : Nat)
    {t fp : Str} {ap : Option Str}
    (hext : isExternal t = false) (hh : t.head? ≠ some '#')
    (hs : splitTarget t = (fp, ap))
    (hex : fs.exists' (resolveTarget filepath fp) = true) :
    process_link fs filepath codexRoot n t =
      if anchorTruthy ap && fs.isFile (resolveTarget filepath fp) then
        match ap with
        | some a =>
          if a ∈ extract_anchors fs (resolveTarget filepath fp) then []
          else [{ file := relative_to filepath codexRoot, line := n, link := t,
                  issue := "Anchor `#".toList ++ a
                    ++ "` not found in target file".toList }]
        | none => []
      else [] := by
  unfold process_link
  rw [hext]
  simp only [Bool.false_eq_true, if_false, if_neg hh, hs, hex]
  simp

/-! ## The claims -/

/-- C10: `slugify_heading` implements the normalisation pipeline, returning
"getting-started" for "Getting Started", "whats-new" for "What's New?",
"" for "", and "bold-and-italic-and-code" for
"**Bold** and *Italic* and `code`". -/
theorem claim10_slugify_examples :
    slugify_heading "Getting Started".toList = "getting-started".toList ∧
    slugify_heading "What's New?".toList = "whats-new".toList ∧
    slugify_heading "".toList = "".toList ∧
    slugify_heading "**Bold** and *Italic* and `code`".toList
      = "bold-and-italic-and-code".toList :=
  ⟨by decide, by decide, by decide, by decide⟩

/-- C2: the slugifier is idempotent — applying `slugify_heading` to its own
output returns that output unchanged, for every string. -/
theorem claim2_slugify_idempotent (x : Str) :
    slugify_heading (slugify_heading x) = slugify_heading x :=
  slugify_heading_idem x

/-- C2 witness: the round-trip property at a concrete heading. -/
theorem claim2_witness :
    slugify_heading (slugify_heading "A *B* c!".toList)
      = slugify_heading "A *B* c!".toList :=
  claim2_slugify_idempotent "A *B* c!".toList

/-- A one-file filesystem holding a document with the duplicate heading
"Intro" on two lines. -/
def introFS : FS where
  read := fun p =>
    if p = ["d.md".toList] then some "# Intro\n# Intro".toList else none
  isFile := fun p => decide (p = ["d.md".toList])
  isDir := fun _ => false
  children := fun _ => []

/-- C9: `extract_anchors` returns a proper set — no duplicates, no empty
string — and the two-"Intro" document yields exactly the singleton
{"intro"}. -/
theorem claim9_anchor_set_proper :
    (∀ (fs : FS) (p : FsPath),
      (extract_anchors fs p).val.Nodup ∧ [] ∉ extract_anchors fs p) ∧
    extract_anchors introFS ["d.md".toList] = {"intro".toList} := by
  constructor
  · intro fs p
    refine ⟨(extract_anchors fs p).nodup, ?_⟩
    intro hm
    unfold extract_anchors at hm
    cases hr : fs.read p with
    | none => rw [hr] at hm; simp at hm
    | some content =>
      rw [hr] at hm
      simp only [List.mem_toFinset, List.mem_filter] at hm
      simpa using hm.2
  · decide

/-- C9 witness: the general part instantiated at the concrete document. -/
theorem claim9_witness : ([] : Str) ∉ extract_anchors introFS ["d.md".toList] :=
  (claim9_anchor_set_proper.1 introFS ["d.md".toList]).2

/-- Every issue produced for one reference carries the document path
relative to the codex root. -/
theorem file_of_mem_process_link {fs : FS} {filepath codexRoot : FsPath}
    {n : Nat} {t : Str} {i : Issue}
    (h : i ∈ process_link fs filepath codexRoot n t) :
    i.file = relative_to filepath codexRoot := by
  simp only [process_link] at h
  repeat' split at h
  all_goals simp_all

/-- Every issue produced for one line carries the document path relative to
the codex root. -/
theorem file_of_mem_lineIssues {fs : FS} {filepath codexRoot : FsPath}
    {n : Nat} {line : Str} {i : Issue}
    (h : i ∈ lineIssues fs filepath codexRoot n line) :
    i.file = relative_to filepath codexRoot := by
  unfold lineIssues at h
  split at h
  · simp at h
  · rcases List.mem_flatMap.mp h with ⟨m, _, hm⟩
    exact file_of_mem_process_link hm

/-- Corpus for C1: the codex root is `/c`, the caller scans the
subdirectory `/c/sub`, and `/c/sub/doc.md` holds one broken reference. -/
def fs1 : FS where
  read := fun p =>
    if p = ["c".toList, "sub".toList, "doc.md".toList] then
      some "[x](missing.md)".toList
    else none
  isFile := fun p => decide (p = ["c".toList, "sub".toList, "doc.md".toList])
  isDir := fun p => decide (p = ["c".toList]) || decide (p = ["c".toList, "sub".toList])
  children := fun p =>
    if p = ["c".toList, "sub".toList] then ["doc.md".toList] else []

def c1doc : FsPath := ["c".toList, "sub".toList, "doc.md".toList]

def c1scan : FsPath := ["c".toList, "sub".toList]

def c1root : FsPath := ["c".toList]

/-- C1 counterexample: scanning `/c/sub/doc.md` with scan root `/c/sub`
emits an issue whose document-path field is `sub/doc.md` — the path
relative to the module-level codex root `/c` — while the path relative to
the supplied `scan_root` would be `doc.md`.  The claim, which says the
field is relative to the `scan_root` argument, is false here. -/
theorem claim1_counterexample :
    validate_file fs1 c1doc c1scan c1root =
      [{ file := some ["sub".toList, "doc.md".toList], line := 1,
         link := "missing.md".toList, issue := "File not found".toList }] ∧
    relative_to c1doc c1scan = some ["doc.md".toList] ∧
    (some [("sub".toList : Str), "doc.md".toList] : Option FsPath)
      ≠ relative_to c1doc c1scan :=
  ⟨by decide, by decide, by decide⟩

/-- C1 (amended): `validate_file` ignores its `scan_root` argument
entirely, and every emitted issue's document-path field is the document's
path relative to the module-level codex root. -/
theorem claim1_issue_paths_use_codex_root :
    (∀ (fs : FS) (filepath s s' codexRoot : FsPath),
      validate_file fs filepath s codexRoot = validate_file fs filepath s' codexRoot) ∧
    (∀ (fs : FS) (filepath scan_root codexRoot : FsPath) (i : Issue),
      i ∈ validate_file fs filepath scan_root codexRoot →
      i.file = relative_to filepath codexRoot) := by
  constructor
  · intro fs filepath s s' codexRoot
    rfl
  · intro fs filepath scan_root codexRoot i hi
    unfold validate_file at hi
    cases hr : fs.read filepath with
    | none => rw [hr] at hi; simp at hi
    | some content =>
      rw [hr] at hi
      rcases List.mem_flatMap.mp hi with ⟨p, _, hp⟩
      exact file_of_mem_lineIssues hp

/-- C1 witness: the amended theorem applied to the concrete corpus. -/
theorem claim1_witness :
    ({ file := some ["sub".toList, "doc.md".toList], line := 1,
       link := "missing.md".toList, issue := "File not found".toList } : Issue).file
      = relative_to c1doc c1root :=
  claim1_issue_paths_use_codex_root.2 fs1 c1doc c1scan c1root _ (by decide)

/-- Corpus for C3: a document whose only reference sits between two fence
marker lines. -/
def fs3 : FS where
  read := fun p =>
    if p = ["c".toList, "doc.md".toList] then
      some "```\n[x](y.md)\n```".toList
    else none
  isFile := fun p => decide (p = ["c".toList, "doc.md".toList])
  isDir := fun p => decide (p = ["c".toList])
  children := fun p => if p = ["c".toList] then ["doc.md".toList] else []

/-- C3: only a line whose stripped content begins with three backticks is
skipped; every other line is scanned, so the reference on the interior
line of a fenced block still produces its issue. -/
theorem claim3_fence_skip_is_per_line :
    (∀ (fs : FS) (filepath codexRoot : FsPath) (n : Nat) (line : Str),
      "```".toList.isPrefixOf (pyStrip line) = false →
      lineIssues fs filepath codexRoot n line =
        (findLinks line).flatMap (fun m => process_link fs filepath codexRoot n m.2)) ∧
    (∀ (fs : FS) (filepath codexRoot : FsPath) (n : Nat) (line : Str),
      "```".toList.isPrefixOf (pyStrip line) = true →
      lineIssues fs filepath codexRoot n line = []) ∧
    validate_file fs3 ["c".toList, "doc.md".toList] ["c".toList] ["c".toList] =
      [{ file := some ["doc.md".toList], line := 2, link := "y.md".toList,
         issue := "File not found".toList }] := by
  refine ⟨?_, ?_, by decide⟩
  · intro fs filepath codexRoot n line h
    unfold lineIssues
    rw [h]
    simp
  · intro fs filepath codexRoot n line h
    unfold lineIssues
    rw [h]
    simp

/-- C3 witness: the scanned-line part applied to the interior line. -/
theorem claim3_witness :
    lineIssues fs3 ["c".toList, "doc.md".toList] ["c".toList] 2 "[x](y.md)".toList =
      (findLinks "[x](y.md)".toList).flatMap
        (fun m => process_link fs3 ["c".toList, "doc.md".toList] ["c".toList] 2 m.2) :=
  claim3_fence_skip_is_per_line.1 fs3 ["c".toList, "doc.md".toList] ["c".toList] 2
    "[x](y.md)".toList (by decide)

/-- C4: a cross-document reference whose resolved file part does not exist
yields exactly one issue; its reason begins "Directory not found" when the
file part ends with a path separator and "File not found" otherwise, and
carries a "did you mean" suffix naming the first sibling of the resolved
path's parent (when that parent exists) whose name contains the missing
name or vice versa. -/
theorem claim4_missing_target (fs : FS) (filepath codexRoot : FsPath) (n : Nat)
    (t fp : Str) (ap : Option Str)
    (hext : isExternal t = false) (hh : t.head? ≠ some '#')
    (hs : splitTarget t = (fp, ap))
    (hne : fs.exists' (resolveTarget filepath fp) = false) :
    process_link fs filepath codexRoot n t =
      [{ file := relative_to filepath codexRoot, line := n, link := t,
         issue :=
           (if fp.getLast? = some '/' then "Directory not found".toList
            else "File not found".toList)
             ++ (if fs.exists' ((resolveTarget filepath fp).dropLast) = true then
                  match (fs.children ((resolveTarget filepath fp).dropLast)).find?
                      (fun sib =>
                        isSubstr ((resolveTarget filepath fp).getLastD []) sib ||
                        isSubstr sib ((resolveTarget filepath fp).getLastD [])) with
                  | some sib => " (did you mean `".toList ++ sib ++ "`?)".toList
                  | none => []
                 else []) }] := by
  rw [process_link_missing fs filepath codexRoot n hext hh hs hne]
  by_cases hsl : fp.getLast? = some '/'
  · rw [if_pos hsl, if_pos hsl,
      show ("Directory".toList ++ " not found".toList : Str)
        = "Directory not found".toList from by decide]
  · rw [if_neg hsl, if_neg hsl,
      show ("File".toList ++ " not found".toList : Str)
        = "File not found".toList from by decide]

/-- Corpus for C4: `/c` holds `b.md` and `doc.md`; `doc.md` links to the
missing `bb.md` (suggestion `b.md`) and to the missing directory
`nodir/`. -/
def fs4 : FS where
  read := fun p =>
    if p = ["c".toList, "doc.md".toList] then
      some "[a](bb.md)\n[b](nodir/)".toList
    else none
  isFile := fun p =>
    decide (p = ["c".toList, "doc.md".toList]) ||
      decide (p = ["c".toList, "b.md".toList])
  isDir := fun p => decide (p = ["c".toList])
  children := fun p =>
    if p = ["c".toList] then ["b.md".toList, "doc.md".toList] else []

/-- C4 witness: the missing file `bb.md` (reason "File not found" plus the
`b.md` suggestion) and the missing directory `nodir/` (reason
"Directory not found", no suggestion). -/
theorem claim4_witness :
    process_link fs4 ["c".toList, "doc.md".toList] ["c".toList] 1 "bb.md".toList =
      [{ file := some ["doc.md".toList], line := 1, link := "bb.md".toList,
         issue := "File not found (did you mean `b.md`?)".toList }] ∧
    process_link fs4 ["c".toList, "doc.md".toList] ["c".toList] 2 "nodir/".toList =
      [{ file := some ["doc.md".toList], line := 2, link := "nodir/".toList,
         issue := "Directory not found".toList }] :=
  ⟨(claim4_missing_target fs4 ["c".toList, "doc.md".toList] ["c".toList] 1
      "bb.md".toList "bb.md".toList none (by decide) (by decide) (by decide)
      (by decide)).trans (by decide),
   (claim4_missing_target fs4 ["c".toList, "doc.md".toList] ["c".toList] 2
      "nodir/".toList "nodir/".toList none (by decide) (by decide) (by decide)
      (by decide)).trans (by decide)⟩

/-- C5: a cross-document reference with a (non-empty) anchor part whose
resolved target exists: when the target is a regular file and the anchor is
not among its anchors, exactly one issue with reason
"Anchor `#<anchor>` not found in target file" is emitted; when the target
is not a regular file (a directory), no issue is emitted regardless of the
anchor. -/
theorem claim5_target_anchor_check (fs : FS) (filepath codexRoot : FsPath)
    (n : Nat) (t fp ap : Str)
    (hext : isExternal t = false) (hh : t.head? ≠ some '#')
    (hs : splitTarget t = (fp, some ap)) (hap : ap ≠ [])
    (hex : fs.exists' (resolveTarget filepath fp) = true) :
    (fs.isFile (resolveTarget filepath fp) = true →
      ap ∉ extract_anchors fs (resolveTarget filepath fp) →
      process_link fs filepath codexRoot n t =
        [{ file := relative_to filepath codexRoot, line := n, link := t,
           issue := "Anchor `#".toList ++ ap
             ++ "` not found in target file".toList }]) ∧
    (fs.isFile (resolveTarget filepath fp) = false →
      process_link fs filepath codexRoot n t = []) := by
  have htr : anchorTruthy (some ap) = true := by
    simp [anchorTruthy, hap]
  constructor
  · intro hf hm
    rw [process_link_exists fs filepath codexRoot n hext hh hs hex]
    simp [htr, hf, hm]
  · intro hf
    rw [process_link_exists fs filepath codexRoot n hext hh hs hex]
    simp [hf]

/-- Corpus for C5: `/c/a.md` links into `/c/b.md` (whose only anchor is
"present") with a missing anchor, and into the directory `/c/sub` with an
anchor fragment. -/
def fs5 : FS where
  read := fun p =>
    if p = ["c".toList, "a.md".toList] then
      some "[x](b.md#missing-sec)\n[y](sub#frag)".toList
    else if p = ["c".toList, "b.md".toList] then
      some "# Present\n".toList
    else none
  isFile := fun p =>
    decide (p = ["c".toList, "a.md".toList]) ||
      decide (p = ["c".toList, "b.md".toList])
  isDir := fun p =>
    decide (p = ["c".toList]) || decide (p = ["c".toList, "sub".toList])
  children := fun p =>
    if p = ["c".toList] then ["a.md".toList, "b.md".toList, "sub".toList] else []

/-- C5 witness: the missing anchor in an existing file yields its issue;
the directory target with an anchor fragment yields none. -/
theorem claim5_witness :
    process_link fs5 ["c".toList, "a.md".toList] ["c".toList] 1
        "b.md#missing-sec".toList =
      [{ file := some ["a.md".toList], line := 1,
         link := "b.md#missing-sec".toList,
         issue := "Anchor `#missing-sec` not found in target file".toList }] ∧
    process_link fs5 ["c".toList, "a.md".toList] ["c".toList] 2
        "sub#frag".toList = [] :=
  ⟨((claim5_target_anchor_check fs5 ["c".toList, "a.md".toList] ["c".toList] 1
      "b.md#missing-sec".toList "b.md".toList "missing-sec".toList
      (by decide) (by decide) (by decide) (by decide) (by decide)).1
      (by decide) (by decide)).trans (by decide),
   (claim5_target_anchor_check fs5 ["c".toList, "a.md".toList] ["c".toList] 2
      "sub#frag".toList "sub".toList "frag".toList
      (by decide) (by decide) (by decide) (by decide) (by decide)).2 (by decide)⟩

/-- C6: a cross-document reference whose split anchor part is the empty
string (target ending in a single `#`) against an existing regular file
produces no issue: the empty anchor part is falsy and disables the anchor
check instead of being looked up. -/
theorem claim6_empty_anchor_no_issue (fs : FS) (filepath codexRoot : FsPath)
    (n : Nat) (t fp : Str)
    (hext : isExternal t = false) (hh : t.head? ≠ some '#')
    (hs : splitTarget t = (fp, some []))
    (hex : fs.exists' (resolveTarget filepath fp) = true)
    (hf : fs.isFile (resolveTarget filepath fp) = true) :
    process_link fs filepath codexRoot n t = [] := by
  rw [process_link_exists fs filepath codexRoot n hext hh hs hex]
  simp [anchorTruthy]

/-- Corpus for C6: `/c/a.md` links to `b.md#`; `/c/b.md` exists and has no
heading at all, so a looked-up empty anchor would have been reported. -/
def fs6 : FS where
  read := fun p =>
    if p = ["c".toList, "a.md".toList] then some "[x](b.md#)".toList
    else if p = ["c".toList, "b.md".toList] then some "no headings here".toList
    else none
  isFile := fun p =>
    decide (p = ["c".toList, "a.md".toList]) ||
      decide (p = ["c".toList, "b.md".toList])
  isDir := fun p => decide (p = ["c".toList])
  children := fun p =>
    if p = ["c".toList] then ["a.md".toList, "b.md".toList] else []

/-- C6 witness: the `b.md#` reference produces no issue. -/
theorem claim6_witness :
    process_link fs6 ["c".toList, "a.md".toList] ["c".toList] 1
      "b.md#".toList = [] :=
  claim6_empty_anchor_no_issue fs6 ["c".toList, "a.md".toList] ["c".toList] 1
    "b.md#".toList "b.md".toList (by decide) (by decide) (by decide)
    (by decide) (by decide)

/-- C7: an unreadable path yields the empty anchor set (and no error), so a
(non-empty) anchor reference into an unreadable target is always reported
broken. -/
theorem claim7_unreadable_target :
    (∀ (fs : FS) (p : FsPath), fs.read p = none → extract_anchors fs p = ∅) ∧
    (∀ (fs : FS) (filepath codexRoot : FsPath) (n : Nat) (t fp ap : Str),
      isExternal t = false → t.head? ≠ some '#' →
      splitTarget t = (fp, some ap) → ap ≠ [] →
      fs.exists' (resolveTarget filepath fp) = true →
      fs.isFile (resolveTarget filepath fp) = true →
      fs.read (resolveTarget filepath fp) = none →
      process_link fs filepath codexRoot n t =
        [{ file := relative_to filepath codexRoot, line := n, link := t,
           issue := "Anchor `#".toList ++ ap
             ++ "` not found in target file".toList }]) := by
  constructor
  · intro fs p h
    unfold extract_anchors
    rw [h]
  · intro fs filepath codexRoot n t fp ap hext hh hs hap hex hf hr
    rw [process_link_exists fs filepath codexRoot n hext hh hs hex]
    have hanch : extract_anchors fs (resolveTarget filepath fp) = ∅ := by
      unfold extract_anchors
      rw [hr]
    have htr : anchorTruthy (some ap) = true := by
      simp [anchorTruthy, hap]
    simp [htr, hf, hanch]

/-- Corpus for C7: `/c/doc.md` links into `/c/bin.dat`, a file that exists
but cannot be read as UTF-8. -/
def fs7 : FS where
  read := fun p =>
    if p = ["c".toList, "doc.md".toList] then some "[x](bin.dat#sec)".toList
    else none
  isFile := fun p =>
    decide (p = ["c".toList, "doc.md".toList]) ||
      decide (p = ["c".toList, "bin.dat".toList])
  isDir := fun p => decide (p = ["c".toList])
  children := fun p =>
    if p = ["c".toList] then ["doc.md".toList, "bin.dat".toList] else []

/-- C7 witness: the unreadable target has the empty anchor set, and the
anchor reference into it is reported broken. -/
theorem claim7_witness :
    extract_anchors fs7 ["c".toList, "bin.dat".toList] = ∅ ∧
    process_link fs7 ["c".toList, "doc.md".toList] ["c".toList] 1
        "bin.dat#sec".toList =
      [{ file := some ["doc.md".toList], line := 1,
         link := "bin.dat#sec".toList,
         issue := "Anchor `#sec` not found in target file".toList }] :=
  ⟨claim7_unreadable_target.1 fs7 ["c".toList, "bin.dat".toList] rfl,
   (claim7_unreadable_target.2 fs7 ["c".toList, "doc.md".toList] ["c".toList] 1
      "bin.dat#sec".toList "bin.dat".toList "sec".toList
      (by decide) (by decide) (by decide) (by decide) (by decide) (by decide)
      rfl).trans (by decide)⟩

/-- Corpus for C8's counterexample: `/c/d.md` holds the heading `!!!`
(whose slug is the empty string) and the reference `[x](#)`. -/
def fs8 : FS where
  read := fun p =>
    if p = ["c".toList, "d.md".toList] then some "# !!!\n[x](#)".toList
    else none
  isFile := fun p => decide (p = ["c".toList, "d.md".toList])
  isDir := fun p => decide (p = ["c".toList])
  children := fun p => if p = ["c".toList] then ["d.md".toList] else []

/-- C8 counterexample: in `/c/d.md` the heading `!!!` slugifies to the
empty string, which is exactly the target `#` stripped of its marker; the
claim therefore demands no issue for `[x](#)`, yet the script emits one
(empty slugs are never added to the anchor set). -/
theorem claim8_counterexample :
    headingsOf "# !!!\n[x](#)".toList = ["!!!".toList] ∧
    slugify_heading "!!!".toList = "#".toList.drop 1 ∧
    validate_file fs8 ["c".toList, "d.md".toList] ["c".toList] ["c".toList] =
      [{ file := some ["d.md".toList], line := 2, link := "#".toList,
         issue := "Anchor not found in file".toList }] :=
  ⟨by decide, by decide, by decide⟩

/-- C8 (amended): a same-document reference `#a` yields exactly one issue
with reason "Anchor not found in file" when `a` is not in the document's
anchor set — the set of non-empty heading slugs — and no issue when it is.
(A heading whose slug is empty contributes nothing, so `#` is reported
even if some heading slugifies to the empty string.) -/
theorem claim8_same_doc_anchor (fs : FS) (filepath codexRoot : FsPath)
    (n : Nat) (t : Str) (hh : t.head? = some '#') :
    (t.drop 1 ∉ extract_anchors fs filepath →
      process_link fs filepath codexRoot n t =
        [{ file := relative_to filepath codexRoot, line := n, link := t,
           issue := "Anchor not found in file".toList }]) ∧
    (t.drop 1 ∈ extract_anchors fs filepath →
      process_link fs filepath codexRoot n t = []) := by
  constructor <;> intro hm <;>
    rw [process_link_same_doc fs filepath codexRoot n hh]
  · rw [if_neg hm]
  · rw [if_pos hm]

/-- Corpus for C8's witness: `/c/e.md` has the anchor "hi" and references
`#hi` (present) and `#nope` (absent). -/
def fs8b : FS where
  read := fun p =>
    if p = ["c".toList, "e.md".toList] then
      some "# Hi\n[a](#hi)\n[b](#nope)".toList
    else none
  isFile := fun p => decide (p = ["c".toList, "e.md".toList])
  isDir := fun p => decide (p = ["c".toList])
  children := fun p => if p = ["c".toList] then ["e.md".toList] else []

/-- C8 witness: the amended theorem at a missing and at a present anchor. -/
theorem claim8_witness :
    process_link fs8b ["c".toList, "e.md".toList] ["c".toList] 3
        "#nope".toList =
      [{ file := some ["e.md".toList], line := 3, link := "#nope".toList,
         issue := "Anchor not found in file".toList }] ∧
    process_link fs8b ["c".toList, "e.md".toList] ["c".toList] 2
        "#hi".toList = [] :=
  ⟨(claim8_same_doc_anchor fs8b ["c".toList, "e.md".toList] ["c".toList] 3
      "#nope".toList rfl).1 (by decide),
   (claim8_same_doc_anchor fs8b ["c".toList, "e.md".toList] ["c".toList] 2
      "#hi".toList rfl).2 (by decide)⟩

end ValidateLinks
